import Mathlib

/-!
# Masterblog — verification of the PostStore + Router contract

A shallow embedding of `src/app.py`, a Flask CRUD application persisting
blog posts as a JSON array in a single backing file.

Modelling conventions:
* The backing file is modelled at JSON-value level (`Json`); the handlers
  operate on the parsed collection (`List Post`), with the duplicate-id
  validation of `load_posts` threaded explicitly.  File I/O becomes
  explicit state passing: each handler takes the current store and returns
  the response together with the store left behind.
* A Python exception that propagates out of a handler (the `ValueError`
  raised on duplicate ids) is an `Except.error`; the store component of an
  erroring handler is by convention the unchanged input store, recovered
  via `resultStore`.
* Machine integers do not arise: Python ints are unbounded and ids are
  non-negative, so ids are `Nat`.
-/

namespace Masterblog

/-- A blog post record: the only entity.  Mirrors the dictionaries stored
in `data/post.json`, each with exactly the keys `id`, `author`, `title`,
`content`. -/
structure Post where
  id : Nat
  author : String
  title : String
  content : String
deriving Repr, DecidableEq

/-- HTTP method relevant to the routes (`GET` or `POST`). -/
inductive Method where
  | get
  | post
deriving Repr, DecidableEq

/-- The observable response of a handler: a rendered template, a plain text
body with a status code (`return "Post not found", 404`), or a redirect
(`redirect("/")`). -/
inductive Response where
  | html (template : String)
  | text (body : String) (status : Nat)
  | redirect (location : String)
deriving Repr, DecidableEq

/-- `load_posts` (app.py lines 8-28), value level: the file has been read
and JSON-parsed into `posts`; this models the validation step
`ids = [post["id"] for post in posts]; if len(ids) != len(set(ids)):
raise ValueError(...)`.  `set(ids)` has as many elements as `ids.dedup`. -/
def load_posts (posts : List Post) : Except String (List Post) :=
  let ids := posts.map Post.id
  if ids.length ≠ ids.dedup.length then
    Except.error "Duplicate IDs found in posts"
  else
    Except.ok posts

/-- `get_next_id` (app.py lines 142-155): `max(post["id"] for post in
posts) + 1` if `posts` is non-empty, else `1`.  The source reloads the file
itself; here the loaded collection is the argument. -/
def get_next_id (posts : List Post) : Nat :=
  if posts.isEmpty then 1
  else (posts.map Post.id).foldl Nat.max 0 + 1

/-- `id_exists` (app.py lines 176-188):
`any(post["id"] == post_id for post in posts)`. -/
def id_exists (post_id : Nat) (posts : List Post) : Bool :=
  posts.any (fun post => post.id == post_id)

/-- `fetch_post_by_id` (app.py lines 158-173): loads the posts and returns
the first one with the given id, or `none`.  The `for`/`return` scan over
the list is `List.find?`. -/
def fetch_post_by_id (post_id : Nat) (store : List Post) : Except String (Option Post) :=
  match load_posts store with
  | Except.error e => Except.error e
  | Except.ok posts => Except.ok (posts.find? (fun post => post.id == post_id))

/-- The `while id_exists(new_id, blog_posts): new_id += 1` loop inside the
`/add` handler (app.py lines 64-65).  Terminates because a colliding
candidate is one of the ids, hence bounded by their sum. -/
def collision_loop (blog_posts : List Post) (new_id : Nat) : Nat :=
  if h : id_exists new_id blog_posts then
    collision_loop blog_posts (new_id + 1)
  else
    new_id
termination_by (blog_posts.map Post.id).sum + 1 - new_id
decreasing_by
  simp only [id_exists, List.any_eq_true, beq_iff_eq] at h
  obtain ⟨post, hmem, hid⟩ := h
  have hle : new_id ≤ (blog_posts.map Post.id).sum := by
    have : post.id ∈ blog_posts.map Post.id := List.mem_map_of_mem Post.id hmem
    have := List.single_le_sum (by intro x _; exact Nat.zero_le x) _ this
    omega
  omega

/-- The `index` handler for `GET /` (app.py lines 31-43): load the posts and
render the listing page.  No write occurs, so the store passes through. -/
def index (store : List Post) : Except String (Response × List Post) :=
  match load_posts store with
  | Except.error e => Except.error e
  | Except.ok _blog_posts => Except.ok (Response.html "index.html", store)

/-- The `add` handler for `/add` (app.py lines 46-80).  On GET, render the
submission form.  On POST: load, compute `new_id = get_next_id()`, run the
collision loop on it, build the new post from the form fields with a fresh
`get_next_id()` call as its id, append, save, redirect to `/`. -/
def add (method : Method) (author title content : String) (store : List Post) :
    Except String (Response × List Post) :=
  match method with
  | Method.post =>
    match load_posts store with
    | Except.error e => Except.error e
    | Except.ok blog_posts =>
      let new_id := get_next_id blog_posts
      let _collision_adjusted := collision_loop blog_posts new_id
      let new_post : Post :=
        { id := get_next_id blog_posts
          author := author
          title := title
          content := content }
      Except.ok (Response.redirect "/", blog_posts ++ [new_post])
  | Method.get => Except.ok (Response.html "add.html", store)

/-- Comparison definition for the refinement claim, following the spec's
words: the POST branch of the `/add` handler with the collision while-loop
removed, the record keeping the first computed next id. -/
def add_without_loop (author title content : String) (store : List Post) :
    Except String (Response × List Post) :=
  match load_posts store with
  | Except.error e => Except.error e
  | Except.ok blog_posts =>
    let new_post : Post :=
      { id := get_next_id blog_posts
        author := author
        title := title
        content := content }
    Except.ok (Response.redirect "/", blog_posts ++ [new_post])

/-- The `delete` handler for `GET /delete/<int:post_id>` (app.py lines
83-102): load, keep exactly the posts whose id differs, save, redirect. -/
def delete (post_id : Nat) (store : List Post) : Except String (Response × List Post) :=
  match load_posts store with
  | Except.error e => Except.error e
  | Except.ok blog_posts =>
    Except.ok (Response.redirect "/",
      blog_posts.filter (fun post => post.id != post_id))

/-- The `for i, existing_post in enumerate(blog_posts): if existing_post["id"]
== post_id: blog_posts[i] = post; break` loop inside the `/update` handler
(app.py lines 129-132): replace the first post whose id matches. -/
def replace_first_by_id (blog_posts : List Post) (post_id : Nat) (post : Post) : List Post :=
  match blog_posts with
  | [] => []
  | existing_post :: rest =>
    if existing_post.id == post_id then post :: rest
    else existing_post :: replace_first_by_id rest post_id post

/-- The `update` handler for `/update/<int:post_id>` (app.py lines 105-139):
fetch the post by id; if absent return `("Post not found", 404)` before
looking at the method or the form.  On POST, overwrite the fetched post's
author/title/content from the form, reload, replace the first post with the
matching id, save, redirect.  On GET, render the pre-filled form. -/
def update (method : Method) (post_id : Nat) (author title content : String)
    (store : List Post) : Except String (Response × List Post) :=
  match fetch_post_by_id post_id store with
  | Except.error e => Except.error e
  | Except.ok none => Except.ok (Response.text "Post not found" 404, store)
  | Except.ok (some post) =>
    match method with
    | Method.post =>
      let post := { post with author := author, title := title, content := content }
      match load_posts store with
      | Except.error e => Except.error e
      | Except.ok blog_posts =>
        Except.ok (Response.redirect "/", replace_first_by_id blog_posts post_id post)
    | Method.get => Except.ok (Response.html "update.html", store)

/-- The backing store the handler leaves behind: the store component of an
`ok` result, or the unchanged input when the handler raised (an unhandled
exception writes nothing). -/
def resultStore (orig : List Post) (r : Except String (Response × List Post)) : List Post :=
  match r with
  | Except.ok (_, store) => store
  | Except.error _ => orig

/-! ## The JSON file layer (for the save/load round trip) -/

/-- JSON values, restricted to the shapes the backing file uses: an array
of objects whose fields are numbers or strings. -/
inductive Json where
  | num (n : Nat)
  | str (s : String)
  | arr (items : List Json)
  | obj (fields : List (String × Json))

/-- Dictionary field access, `d[key]` on a parsed JSON object. -/
def getField (fields : List (String × Json)) (key : String) : Option Json :=
  match fields with
  | [] => none
  | (k, v) :: rest => if k == key then some v else getField rest key

/-- Serialization of one post, as `json.dump` renders one dictionary. -/
def encodePost (p : Post) : Json :=
  Json.obj [("id", Json.num p.id), ("author", Json.str p.author),
            ("title", Json.str p.title), ("content", Json.str p.content)]

/-- Parsing one record back out of the JSON value, as the handlers consume
`post["id"]`, `post["author"]`, `post["title"]`, `post["content"]`. -/
def decodePost (j : Json) : Option Post :=
  match j with
  | Json.obj fields =>
    match getField fields "id", getField fields "author",
          getField fields "title", getField fields "content" with
    | some (Json.num i), some (Json.str a), some (Json.str t), some (Json.str c) =>
      some { id := i, author := a, title := t, content := c }
    | _, _, _, _ => none
  | _ => none

/-- `saveAll` of the spec: `json.dump(blog_posts, file, indent=4)` at JSON
value level — the file afterwards holds the array of encoded posts. -/
def save_all (posts : List Post) : Json :=
  Json.arr (posts.map encodePost)

/-- Parsing the whole array of records, record by record. -/
def decodePosts (items : List Json) : Option (List Post) :=
  match items with
  | [] => some []
  | j :: rest =>
    match decodePost j, decodePosts rest with
    | some p, some ps => some (p :: ps)
    | _, _ => none

/-- `loadAll` of the spec / `load_posts` of the source including the JSON
layer: parse the file value as an array of post records, then run the
duplicate-id validation. -/
def load_all (file : Json) : Except String (List Post) :=
  match file with
  | Json.arr items =>
    match decodePosts items with
    | none => Except.error "TypeError: malformed post record"
    | some posts => load_posts posts
  | _ => Except.error "TypeError: backing file is not an array"

/-! ## Helper lemmas -/

/-- The seed of a max-fold is a lower bound of the result. -/
theorem le_foldl_max (l : List Nat) (a : Nat) : a ≤ l.foldl Nat.max a := by
  induction l generalizing a with
  | nil => exact Nat.le_refl a
  | cons x xs ih =>
    exact Nat.le_trans (Nat.le_max_left a x) (ih (Nat.max a x))

/-- Every member of a list is bounded by its max-fold. -/
theorem mem_le_foldl_max {l : List Nat} {x : Nat} (a : Nat) (hx : x ∈ l) :
    x ≤ l.foldl Nat.max a := by
  induction l generalizing a with
  | nil => cases hx
  | cons y ys ih =>
    rcases List.mem_cons.mp hx with h | h
    · subst h
      exact Nat.le_trans (Nat.le_max_right a x) (le_foldl_max ys (Nat.max a x))
    · exact ih (Nat.max a y) h

/-- A max-fold is bounded by any common upper bound of the seed and the
elements. -/
theorem foldl_max_le : ∀ (l : List Nat) (a b : Nat), a ≤ b → (∀ x ∈ l, x ≤ b) →
    l.foldl Nat.max a ≤ b := by
  intro l
  induction l with
  | nil => intro a b ha _; exact ha
  | cons y ys ih =>
    intro a b ha h
    exact ih (Nat.max a y) b (Nat.max_le.mpr ⟨ha, h y (List.mem_cons_self y ys)⟩)
      (fun x hx => h x (List.mem_cons_of_mem y hx))

/-- The max-fold from seed 0 computes `List.maximum` on a non-empty list. -/
theorem foldl_max_eq_maximum {l : List Nat} {m : Nat} (h : l.maximum = some m) :
    l.foldl Nat.max 0 = m := by
  have hmem : m ∈ l := List.maximum_mem h
  have h1 : m ≤ l.foldl Nat.max 0 := mem_le_foldl_max 0 hmem
  have h2 : l.foldl Nat.max 0 ≤ m :=
    foldl_max_le l 0 m (Nat.zero_le m) (fun x hx => List.le_maximum_of_mem hx h)
  omega

/-- A list deduplicates to its own length exactly when it has no
duplicates (`len(set(ids)) == len(ids)`). -/
theorem dedup_length_eq_iff_nodup {l : List Nat} : l.dedup.length = l.length ↔ l.Nodup := by
  constructor
  · intro h
    have hsub : l.dedup.Sublist l := List.dedup_sublist l
    have heq : l.dedup = l := hsub.eq_of_length h
    rw [← heq]
    exact l.nodup_dedup
  · intro h
    rw [List.dedup_eq_self.mpr h]

/-- On a duplicate-free collection the load validation succeeds and returns
the collection unchanged. -/
theorem load_posts_ok {posts : List Post} (h : (posts.map Post.id).Nodup) :
    load_posts posts = Except.ok posts := by
  simp [load_posts, List.dedup_eq_self.mpr h]

/-- On a collection with a duplicated id the load validation raises. -/
theorem load_posts_error {posts : List Post} (h : ¬ (posts.map Post.id).Nodup) :
    load_posts posts = Except.error "Duplicate IDs found in posts" := by
  have hne : (posts.map Post.id).length ≠ (posts.map Post.id).dedup.length := by
    intro heq
    exact h (dedup_length_eq_iff_nodup.mp heq.symm)
  simp only [load_posts]
  rw [if_pos hne]

/-- Every stored post's id is strictly below the next id. -/
theorem lt_get_next_id {posts : List Post} {p : Post} (hp : p ∈ posts) :
    p.id < get_next_id posts := by
  unfold get_next_id
  rw [if_neg]
  · have := mem_le_foldl_max 0 (List.mem_map_of_mem Post.id hp)
    omega
  · simp only [List.isEmpty_iff]
    intro h
    subst h
    cases hp

/-- The next id is fresh: no stored post already holds it. -/
theorem get_next_id_not_mem (posts : List Post) :
    get_next_id posts ∉ posts.map Post.id := by
  intro hmem
  obtain ⟨p, hp, hid⟩ := List.mem_map.mp hmem
  have := lt_get_next_id hp
  omega

/-- `id_exists` rejects the freshly computed next id. -/
theorem id_exists_get_next_id (posts : List Post) :
    id_exists (get_next_id posts) posts = false := by
  simp only [id_exists, List.any_eq_false, beq_iff_eq]
  intro p hp he
  have := lt_get_next_id hp
  omega

/-- The collision loop is the identity whenever its guard is false on
entry. -/
theorem collision_loop_eq_self {posts : List Post} {new_id : Nat}
    (h : id_exists new_id posts = false) : collision_loop posts new_id = new_id := by
  rw [collision_loop]
  simp [h]

/-- When the id is absent the scan of `fetch_post_by_id` finds nothing. -/
theorem find_post_none {posts : List Post} {post_id : Nat}
    (h : post_id ∉ posts.map Post.id) :
    posts.find? (fun p => p.id == post_id) = none := by
  rw [List.find?_eq_none]
  intro p hp
  simp only [beq_iff_eq]
  intro he
  exact h (he ▸ List.mem_map_of_mem Post.id hp)

/-- Replacing the first matching post by one carrying the same id leaves
the id sequence of the collection untouched. -/
theorem replace_first_map_id {post_id : Nat} {p : Post} (posts : List Post)
    (hid : p.id = post_id) :
    (replace_first_by_id posts post_id p).map Post.id = posts.map Post.id := by
  induction posts with
  | nil => rfl
  | cons q rest ih =>
    unfold replace_first_by_id
    by_cases hq : q.id = post_id
    · simp [hq, hid]
    · simp [hq, ih]

/-- Under unique ids, replacing the first post found at `post_id` by its
field-overwritten copy is the pointwise overwrite of the collection. -/
theorem replace_first_eq_map {posts : List Post} {post_id : Nat} {p : Post}
    (h : (posts.map Post.id).Nodup)
    (hfind : posts.find? (fun q => q.id == post_id) = some p)
    (author title content : String) :
    replace_first_by_id posts post_id
        { p with author := author, title := title, content := content } =
      posts.map (fun q =>
        if q.id = post_id then { q with author := author, title := title, content := content }
        else q) := by
  induction posts with
  | nil => simp at hfind
  | cons q rest ih =>
    rw [List.find?_cons] at hfind
    cases hbeq : q.id == post_id with
    | true =>
      rw [hbeq] at hfind
      have hpq : q = p := by simpa using hfind
      subst hpq
      have hq : q.id = post_id := beq_iff_eq.mp hbeq
      unfold replace_first_by_id
      rw [if_pos hbeq]
      simp only [List.map_cons, if_pos hq]
      have hrest : ∀ r ∈ rest, ¬ r.id = post_id := by
        intro r hr hre
        have hnot : q.id ∉ rest.map Post.id := (List.nodup_cons.mp (by simpa using h)).1
        exact hnot (by rw [hq, ← hre]; exact List.mem_map_of_mem Post.id hr)
      have hmap : rest.map (fun r =>
          if r.id = post_id then { r with author := author, title := title, content := content }
          else r) = rest := by
        rw [List.map_congr_left (fun r hr => if_neg (hrest r hr))]
        exact List.map_id rest
      rw [hmap]
    | false =>
      rw [hbeq] at hfind
      have hq : ¬ q.id = post_id := by simpa using hbeq
      unfold replace_first_by_id
      rw [if_neg (by simp [hbeq])]
      simp only [List.map_cons, if_neg hq]
      rw [ih (List.nodup_cons.mp (by simpa using h)).2 hfind]

/-- Decoding inverts encoding on a single record. -/
theorem decode_encode (p : Post) : decodePost (encodePost p) = some p := rfl

/-- Decoding inverts encoding on the whole array. -/
theorem decode_encode_list (posts : List Post) :
    decodePosts (posts.map encodePost) = some posts := by
  induction posts with
  | nil => rfl
  | cons p rest ih =>
    simp only [List.map_cons]
    unfold decodePosts
    rw [decode_encode, ih]

/-- Unfolding of `fetch_post_by_id` on a duplicate-free store. -/
theorem fetch_post_by_id_ok {posts : List Post} (post_id : Nat)
    (h : (posts.map Post.id).Nodup) :
    fetch_post_by_id post_id posts =
      Except.ok (posts.find? (fun p => p.id == post_id)) := by
  unfold fetch_post_by_id
  rw [load_posts_ok h]

/-- Unfolding of the POST branch of `add` on a duplicate-free store. -/
theorem add_post_eq (author title content : String) (posts : List Post)
    (h : (posts.map Post.id).Nodup) :
    add Method.post author title content posts =
      Except.ok (Response.redirect "/",
        posts ++ [⟨get_next_id posts, author, title, content⟩]) := by
  unfold add
  rw [load_posts_ok h]

/-- Unfolding of `delete` on a duplicate-free store. -/
theorem delete_eq (post_id : Nat) (posts : List Post)
    (h : (posts.map Post.id).Nodup) :
    delete post_id posts =
      Except.ok (Response.redirect "/",
        posts.filter (fun post => post.id != post_id)) := by
  unfold delete
  rw [load_posts_ok h]

/-- Unfolding of `index` on a duplicate-free store. -/
theorem index_eq (posts : List Post) (h : (posts.map Post.id).Nodup) :
    index posts = Except.ok (Response.html "index.html", posts) := by
  unfold index
  rw [load_posts_ok h]

/-- Unfolding of `update` when the scan finds no post with the id. -/
theorem update_not_found_eq (method : Method) (post_id : Nat)
    (author title content : String) {posts : List Post}
    (h : (posts.map Post.id).Nodup)
    (hf : posts.find? (fun p => p.id == post_id) = none) :
    update method post_id author title content posts =
      Except.ok (Response.text "Post not found" 404, posts) := by
  unfold update
  rw [fetch_post_by_id_ok post_id h, hf]

/-- Unfolding of `GET /update` when the post is found. -/
theorem update_get_present_eq (post_id : Nat) (author title content : String)
    {posts : List Post} {p : Post}
    (h : (posts.map Post.id).Nodup)
    (hf : posts.find? (fun q => q.id == post_id) = some p) :
    update Method.get post_id author title content posts =
      Except.ok (Response.html "update.html", posts) := by
  unfold update
  rw [fetch_post_by_id_ok post_id h, hf]

/-- Unfolding of `POST /update` when the post is found: the store becomes
the collection with the first matching post replaced by its
field-overwritten copy. -/
theorem update_post_present_eq (post_id : Nat) (author title content : String)
    {posts : List Post} {p : Post}
    (h : (posts.map Post.id).Nodup)
    (hf : posts.find? (fun q => q.id == post_id) = some p) :
    update Method.post post_id author title content posts =
      Except.ok (Response.redirect "/",
        replace_first_by_id posts post_id
          { p with author := author, title := title, content := content }) := by
  unfold update
  rw [fetch_post_by_id_ok post_id h, hf, load_posts_ok h]

/-- The post found by the id scan carries the id scanned for. -/
theorem find_post_id {posts : List Post} {post_id : Nat} {p : Post}
    (hf : posts.find? (fun q => q.id == post_id) = some p) : p.id = post_id := by
  have := List.find?_some hf
  simpa using this

/-- A present id is found by the scan. -/
theorem find_post_of_mem {posts : List Post} {post_id : Nat}
    (hmem : post_id ∈ posts.map Post.id) :
    ∃ p, posts.find? (fun q => q.id == post_id) = some p := by
  cases hf : posts.find? (fun q => q.id == post_id) with
  | some p => exact ⟨p, rfl⟩
  | none =>
    obtain ⟨q, hq, hqid⟩ := List.mem_map.mp hmem
    have := List.find?_eq_none.mp hf q hq
    simp [hqid] at this

/-! ## Claim theorems -/

/-- C5: `get_next_id` returns one more than the maximum stored id, and 1
on the empty collection; in particular it maps `[]` to 1 and a collection
with ids 1 and 5 to 6. -/
theorem get_next_id_spec (posts : List Post) :
    (posts = [] → get_next_id posts = 1) ∧
    (∀ m : Nat, (posts.map Post.id).maximum = some m → get_next_id posts = m + 1) ∧
    get_next_id [] = 1 ∧
    get_next_id [⟨1, "a", "t", "c"⟩, ⟨5, "a2", "t2", "c2"⟩] = 6 := by
  refine ⟨?_, ?_, rfl, by decide⟩
  · intro h
    subst h
    rfl
  · intro m hm
    have hne : posts ≠ [] := by
      intro h
      subst h
      simp [List.maximum_nil] at hm
    unfold get_next_id
    rw [if_neg (by simpa [List.isEmpty_iff] using hne), foldl_max_eq_maximum hm]

/-- Witness for C5 at the collection with ids 1 and 5. -/
theorem get_next_id_spec_witness :
    (([⟨1, "a", "t", "c"⟩, ⟨5, "a2", "t2", "c2"⟩] : List Post).map Post.id).maximum = some 5 ∧
    get_next_id [⟨1, "a", "t", "c"⟩, ⟨5, "a2", "t2", "c2"⟩] = 6 :=
  ⟨by decide, (get_next_id_spec [⟨1, "a", "t", "c"⟩, ⟨5, "a2", "t2", "c2"⟩]).2.1 5 (by decide)⟩

/-- C6: the load validation raises precisely when two records share an id,
returns the collection unchanged and in order otherwise, and in particular
rejects a file holding two posts with id 3. -/
theorem load_posts_fails_iff_duplicate (posts : List Post) :
    ((∃ e, load_posts posts = Except.error e) ↔ ¬ (posts.map Post.id).Nodup) ∧
    ((posts.map Post.id).Nodup → load_posts posts = Except.ok posts) ∧
    load_posts [⟨3, "a1", "t1", "c1"⟩, ⟨3, "a2", "t2", "c2"⟩] =
      Except.error "Duplicate IDs found in posts" := by
  refine ⟨⟨?_, ?_⟩, load_posts_ok, ?_⟩
  · rintro ⟨e, he⟩ hnodup
    rw [load_posts_ok hnodup] at he
    cases he
  · intro h
    exact ⟨_, load_posts_error h⟩
  · exact load_posts_error (by decide)

/-- Witness for C6 at a file with two id-3 records. -/
theorem load_posts_fails_iff_duplicate_witness :
    ¬ (([⟨3, "a1", "t1", "c1"⟩, ⟨3, "a2", "t2", "c2"⟩] : List Post).map Post.id).Nodup ∧
    (∃ e, load_posts [⟨3, "a1", "t1", "c1"⟩, ⟨3, "a2", "t2", "c2"⟩] = Except.error e) :=
  ⟨by decide,
    (load_posts_fails_iff_duplicate [⟨3, "a1", "t1", "c1"⟩, ⟨3, "a2", "t2", "c2"⟩]).1.mpr
      (by decide)⟩

/-- C4: saving a duplicate-free collection and loading it back returns the
same collection, order preserved. -/
theorem save_load_round_trip (posts : List Post) (h : (posts.map Post.id).Nodup) :
    load_all (save_all posts) = Except.ok posts := by
  simp only [load_all, save_all, decode_encode_list]
  exact load_posts_ok h

/-- Witness for C4 at a two-post collection. -/
theorem save_load_round_trip_witness :
    (([⟨1, "a", "t", "c"⟩, ⟨2, "b", "u", "d"⟩] : List Post).map Post.id).Nodup ∧
    load_all (save_all [⟨1, "a", "t", "c"⟩, ⟨2, "b", "u", "d"⟩]) =
      Except.ok [⟨1, "a", "t", "c"⟩, ⟨2, "b", "u", "d"⟩] :=
  ⟨by decide, save_load_round_trip [⟨1, "a", "t", "c"⟩, ⟨2, "b", "u", "d"⟩] (by decide)⟩

/-- C1: on a duplicate-free store, `POST /add` appends exactly one post
built from the form fields, with an id no pre-existing post holds, leaves
the pre-existing posts unchanged, and redirects to `/`; on the empty store
the new id is 1, and an immediately following identical add yields 2. -/
theorem add_appends_fresh_post (posts : List Post) (author title content : String)
    (h : (posts.map Post.id).Nodup) :
    add Method.post author title content posts =
      Except.ok (Response.redirect "/",
        posts ++ [⟨get_next_id posts, author, title, content⟩]) ∧
    get_next_id posts ∉ posts.map Post.id ∧
    add Method.post author title content [] =
      Except.ok (Response.redirect "/", [⟨1, author, title, content⟩]) ∧
    add Method.post author title content [⟨1, author, title, content⟩] =
      Except.ok (Response.redirect "/",
        [⟨1, author, title, content⟩, ⟨2, author, title, content⟩]) := by
  refine ⟨add_post_eq author title content posts h, get_next_id_not_mem posts, ?_, ?_⟩
  · rw [add_post_eq author title content [] (by simp)]
    rfl
  · rw [add_post_eq author title content [⟨1, author, title, content⟩] (by simp)]
    rfl

/-- Witness for C1: the second add against a one-post store gets id 2. -/
theorem add_appends_fresh_post_witness :
    (([⟨1, "A", "T", "C"⟩] : List Post).map Post.id).Nodup ∧
    add Method.post "A" "T" "C" [⟨1, "A", "T", "C"⟩] =
      Except.ok (Response.redirect "/", [⟨1, "A", "T", "C"⟩, ⟨2, "A", "T", "C"⟩]) :=
  ⟨by decide, (add_appends_fresh_post [⟨1, "A", "T", "C"⟩] "A" "T" "C" (by decide)).2.2.2⟩

/-- C2: the collision while-loop of the `/add` handler is dead code: the
handler is observably equivalent to the loop-free variant, because the
collision adjustment leaves the freshly computed next id unchanged. -/
theorem add_collision_loop_dead (posts : List Post) (author title content : String)
    (h : (posts.map Post.id).Nodup) :
    add Method.post author title content posts =
      add_without_loop author title content posts ∧
    collision_loop posts (get_next_id posts) = get_next_id posts :=
  ⟨rfl, collision_loop_eq_self (id_exists_get_next_id posts)⟩

/-- Witness for C2 at a one-post store. -/
theorem add_collision_loop_dead_witness :
    (([⟨1, "a", "t", "c"⟩] : List Post).map Post.id).Nodup ∧
    add Method.post "A" "T" "C" [⟨1, "a", "t", "c"⟩] =
      add_without_loop "A" "T" "C" [⟨1, "a", "t", "c"⟩] :=
  ⟨by decide, (add_collision_loop_dead [⟨1, "a", "t", "c"⟩] "A" "T" "C" (by decide)).1⟩

/-- C3: id uniqueness is an invariant: from a duplicate-free store, `add`,
`delete` and `update` all leave behind a duplicate-free store. -/
theorem handlers_preserve_unique_ids (posts : List Post) (method : Method)
    (author title content : String) (post_id : Nat)
    (h : (posts.map Post.id).Nodup) :
    ((resultStore posts (add method author title content posts)).map Post.id).Nodup ∧
    ((resultStore posts (delete post_id posts)).map Post.id).Nodup ∧
    ((resultStore posts (update method post_id author title content posts)).map Post.id).Nodup := by
  refine ⟨?_, ?_, ?_⟩
  · cases method with
    | get => exact h
    | post =>
      rw [add_post_eq author title content posts h]
      show ((posts ++ [(⟨get_next_id posts, author, title, content⟩ : Post)]).map Post.id).Nodup
      rw [List.map_append]
      refine List.Nodup.append h (by simp) ?_
      intro a ha hb
      simp only [List.map_cons, List.map_nil, List.mem_singleton] at hb
      subst hb
      exact get_next_id_not_mem posts ha
  · rw [delete_eq post_id posts h]
    show ((posts.filter (fun post => post.id != post_id)).map Post.id).Nodup
    have hsub : ((posts.filter (fun post => post.id != post_id)).map Post.id).Sublist
        (posts.map Post.id) := List.Sublist.map Post.id (List.filter_sublist posts)
    exact h.sublist hsub
  · cases hf : posts.find? (fun q => q.id == post_id) with
    | none =>
      rw [update_not_found_eq method post_id author title content h hf]
      exact h
    | some p =>
      cases method with
      | get =>
        rw [update_get_present_eq post_id author title content h hf]
        exact h
      | post =>
        rw [update_post_present_eq post_id author title content h hf]
        show ((replace_first_by_id posts post_id
          { p with author := author, title := title, content := content }).map Post.id).Nodup
        have hid0 : p.id = post_id := find_post_id hf
        have hid : (⟨p.id, author, title, content⟩ : Post).id = post_id := hid0
        rw [replace_first_map_id posts hid]
        exact h

/-- Witness for C3 at a one-post store under `POST` operations. -/
theorem handlers_preserve_unique_ids_witness :
    (([⟨1, "a", "t", "c"⟩] : List Post).map Post.id).Nodup ∧
    (((resultStore ([⟨1, "a", "t", "c"⟩] : List Post)
        (add Method.post "A" "T" "C" [⟨1, "a", "t", "c"⟩])).map Post.id).Nodup ∧
      ((resultStore ([⟨1, "a", "t", "c"⟩] : List Post)
        (delete 1 [⟨1, "a", "t", "c"⟩])).map Post.id).Nodup ∧
      ((resultStore ([⟨1, "a", "t", "c"⟩] : List Post)
        (update Method.post 1 "A" "T" "C" [⟨1, "a", "t", "c"⟩])).map Post.id).Nodup) :=
  ⟨by decide, handlers_preserve_unique_ids [⟨1, "a", "t", "c"⟩] Method.post "A" "T" "C" 1 (by decide)⟩

/-- C7: on a duplicate-free store, updating an absent id answers 404 with
the plain-text body "Post not found" for both methods and any form values,
and leaves the store untouched. -/
theorem update_absent_id_not_found (posts : List Post) (method : Method) (post_id : Nat)
    (author title content : String)
    (h : (posts.map Post.id).Nodup) (habs : post_id ∉ posts.map Post.id) :
    update method post_id author title content posts =
      Except.ok (Response.text "Post not found" 404, posts) :=
  update_not_found_eq method post_id author title content h (find_post_none habs)

/-- Witness for C7 at id 99 against a store holding only id 1. -/
theorem update_absent_id_not_found_witness :
    99 ∉ (([⟨1, "a", "t", "c"⟩] : List Post).map Post.id) ∧
    update Method.get 99 "A" "T" "C" [⟨1, "a", "t", "c"⟩] =
      Except.ok (Response.text "Post not found" 404, [⟨1, "a", "t", "c"⟩]) :=
  ⟨by decide,
    update_absent_id_not_found [⟨1, "a", "t", "c"⟩] Method.get 99 "A" "T" "C"
      (by decide) (by decide)⟩

/-- C8: on a duplicate-free store holding the id, `POST /update` overwrites
exactly that post's author/title/content from the form, preserving its id
and position and every other post, and redirects to `/`. -/
theorem update_present_replaces_fields (posts : List Post) (post_id : Nat)
    (author title content : String)
    (h : (posts.map Post.id).Nodup) (hmem : post_id ∈ posts.map Post.id) :
    update Method.post post_id author title content posts =
      Except.ok (Response.redirect "/",
        posts.map (fun q =>
          if q.id = post_id then { q with author := author, title := title, content := content }
          else q)) := by
  obtain ⟨p, hf⟩ := find_post_of_mem hmem
  rw [update_post_present_eq post_id author title content h hf,
    replace_first_eq_map h hf author title content]

/-- Witness for C8: updating id 1 in a two-post store rewrites only the
first post's fields. -/
theorem update_present_replaces_fields_witness :
    update Method.post 1 "A2" "T2" "C2" [⟨1, "a", "t", "c"⟩, ⟨2, "b", "u", "d"⟩] =
      Except.ok (Response.redirect "/", [⟨1, "A2", "T2", "C2"⟩, ⟨2, "b", "u", "d"⟩]) := by
  rw [update_present_replaces_fields [⟨1, "a", "t", "c"⟩, ⟨2, "b", "u", "d"⟩] 1 "A2" "T2" "C2"
    (by decide) (by decide)]
  rfl

/-- C9: on a duplicate-free store, `GET /delete/{id}` rewrites the store to
exactly the posts whose id differs, in order, and redirects to `/`; an
absent id is a silent no-op, and deleting the sole post empties the
store. -/
theorem delete_removes_matching_id (posts : List Post) (post_id : Nat)
    (h : (posts.map Post.id).Nodup) :
    delete post_id posts =
      Except.ok (Response.redirect "/", posts.filter (fun post => post.id != post_id)) ∧
    (post_id ∉ posts.map Post.id →
      delete post_id posts = Except.ok (Response.redirect "/", posts)) ∧
    (∀ p : Post, p.id = post_id →
      delete post_id [p] = Except.ok (Response.redirect "/", [])) := by
  refine ⟨delete_eq post_id posts h, ?_, ?_⟩
  · intro habs
    rw [delete_eq post_id posts h]
    have hfil : posts.filter (fun post => post.id != post_id) = posts := by
      apply List.filter_eq_self.mpr
      intro p hp
      simp only [bne_iff_ne, ne_eq]
      intro he
      exact habs (he ▸ List.mem_map_of_mem Post.id hp)
    rw [hfil]
  · intro p hp
    rw [delete_eq post_id [p] (by simp)]
    simp [hp]

/-- Witness for C9: deleting the only post of a one-post store yields the
empty store. -/
theorem delete_removes_matching_id_witness :
    delete 1 [(⟨1, "a", "t", "c"⟩ : Post)] = Except.ok (Response.redirect "/", []) :=
  (delete_removes_matching_id [⟨1, "a", "t", "c"⟩] 1 (by decide)).2.2 ⟨1, "a", "t", "c"⟩ rfl

/-- C10: the read-only routes — `GET /`, `GET /add`, and `GET /update/{id}`
with the id present or absent — leave the store exactly as it was. -/
theorem read_routes_preserve_store (posts : List Post) (post_id : Nat)
    (author title content : String)
    (h : (posts.map Post.id).Nodup) :
    resultStore posts (index posts) = posts ∧
    resultStore posts (add Method.get author title content posts) = posts ∧
    resultStore posts (update Method.get post_id author title content posts) = posts := by
  refine ⟨?_, rfl, ?_⟩
  · rw [index_eq posts h]
    rfl
  · cases hf : posts.find? (fun q => q.id == post_id) with
    | none =>
      rw [update_not_found_eq Method.get post_id author title content h hf]
      rfl
    | some p =>
      rw [update_get_present_eq post_id author title content h hf]
      rfl

/-- Witness for C10 at a one-post store and an absent update id. -/
theorem read_routes_preserve_store_witness :
    resultStore [(⟨1, "a", "t", "c"⟩ : Post)] (index [⟨1, "a", "t", "c"⟩]) =
      [⟨1, "a", "t", "c"⟩] ∧
    resultStore [(⟨1, "a", "t", "c"⟩ : Post)]
      (add Method.get "A" "T" "C" [⟨1, "a", "t", "c"⟩]) = [⟨1, "a", "t", "c"⟩] ∧
    resultStore [(⟨1, "a", "t", "c"⟩ : Post)]
      (update Method.get 99 "A" "T" "C" [⟨1, "a", "t", "c"⟩]) = [⟨1, "a", "t", "c"⟩] :=
  read_routes_preserve_store [⟨1, "a", "t", "c"⟩] 99 "A" "T" "C" (by decide)

end Masterblog
